import Mathlib

/-!
Verification of the clipboard synchronization engine of
`src/src/enhanced-server.js` (class `EnhancedClipboardServer`).

The JavaScript engine is embedded shallowly: the mutable instance fields
become a `ServerState` record, every observable side effect (OS clipboard
write, history re-broadcast, per-device `clipboard-update` emission) becomes
an `Event` value, and each method becomes a pure function from a state and
its inputs to a new state plus the list of events it emitted, in emission
order.

The MD5 hex digest `generateHash` is modelled by an abstract deterministic
function `genHash : String → String` passed to every operation; the facts the
engine relies on (determinism, and absence of collisions among the concrete
strings involved) appear as explicit hypotheses.  `tagHash` is a concrete
instance used to evaluate witnesses.

Wall-clock time (`Date.now()`) is a `Nat` supplied by the caller, as in the
source where every decision uses a single `const now = Date.now()` sample.
-/

namespace UniversalClipboard

/-- A character is an ASCII decimal digit (regex class `[0-9]`). -/
def isDigit09 (c : Char) : Bool := '0' ≤ c && c ≤ '9'

/-- JavaScript `\s` on the ASCII range: space, tab, LF, VT, FF, CR. -/
def isJsSpace (c : Char) : Bool :=
  c = ' ' || c = '\t' || c = '\n' || c = '\x0b' || c = '\x0c' || c = '\r'

/-- A word character for the regex `\b` boundary: `[A-Za-z0-9_]`. -/
def isWordChar (c : Char) : Bool :=
  ('a' ≤ c && c ≤ 'z') || ('A' ≤ c && c ≤ 'Z') || isDigit09 c || c = '_'

/-- Local-part class of the email pattern: `[A-Za-z0-9._%+-]` (on lowered text). -/
def isEmailLocalChar (c : Char) : Bool :=
  ('a' ≤ c && c ≤ 'z') || isDigit09 c || c = '.' || c = '_' || c = '%' || c = '+' || c = '-'

/-- Domain class of the email pattern: `[A-Za-z0-9.-]` (on lowered text). -/
def isEmailDomChar (c : Char) : Bool :=
  ('a' ≤ c && c ≤ 'z') || isDigit09 c || c = '.' || c = '-'

/-- Top-level-domain class of the email pattern: `[A-Z|a-z]` (on lowered text;
note the literal `|` the source regex includes in the class). -/
def isEmailTldChar (c : Char) : Bool :=
  ('a' ≤ c && c ≤ 'z') || c = '|'

/-- Lower-case a string character-by-character; the case-insensitive regexes
of the source are evaluated on the lowered text against lowered literals. -/
def lowerChars (s : String) : List Char := s.toList.map Char.toLower

/-- `pat` occurs as a contiguous substring of `cs`. -/
def containsSeq (pat : List Char) (cs : List Char) : Bool :=
  cs.tails.any fun t => pat.isPrefixOf t

/-- Match of `/key\s*[:=]/` starting exactly at the head of `cs`. -/
def keyAssignAt : List Char → Bool
  | 'k' :: 'e' :: 'y' :: rest =>
    let rest' := rest.dropWhile isJsSpace
    match rest' with
    | c :: _ => c == ':' || c == '='
    | [] => false
  | _ => false

/-- Match of `/api[_-]?key/` starting exactly at the head of `cs`. -/
def apiKeyAt : List Char → Bool
  | 'a' :: 'p' :: 'i' :: rest =>
    (match rest with
     | c :: rest' =>
       (c == '_' || c == '-') && List.isPrefixOf ['k', 'e', 'y'] rest'
       || List.isPrefixOf ['k', 'e', 'y'] (c :: rest')
     | [] => false)
  | _ => false

/-- `cs` starts with at least sixteen consecutive digits (`/[0-9]{16}/`). -/
def digitRun16At (cs : List Char) : Bool :=
  let pre := cs.takeWhile isDigit09
  16 ≤ pre.length

/-- The regex `\b` predicate between an optional preceding character and a
following position whose character class membership is `nextWord`. -/
def wordBoundary (prev : Option Char) (nextWord : Bool) : Bool :=
  match prev with
  | none => nextWord
  | some p => Bool.xor (isWordChar p) nextWord

/-- Existence of a match of the email regex
`\b[A-Za-z0-9._%+-]+@[A-Za-z0-9.-]+\.[A-Z|a-z]{2,}\b` inside `cs` (already
lowered).  A match is a decomposition `cs = pre ++ local ++ '@' ++ dom ++ '.'
++ tld ++ post` with nonempty `local` and `dom`, `tld` of length ≥ 2, the
character classes as in the source pattern, and `\b` holding at both ends. -/
def emailMatch (cs : List Char) : Bool :=
  let n := cs.length
  (List.range (n + 1)).any fun a =>
  (List.range (n + 1)).any fun b =>
  (List.range (n + 1)).any fun c =>
  (List.range (n + 1)).any fun d =>
    decide (a < b) && decide (b + 2 < c) && decide (c + 2 ≤ d) && decide (d ≤ n)
    && wordBoundary (if a = 0 then none else some (cs.getD (a - 1) ' '))
         (isWordChar (cs.getD a ' '))
    && ((List.range n).all fun i =>
         !(decide (a ≤ i) && decide (i < b)) || isEmailLocalChar (cs.getD i ' '))
    && cs.getD b ' ' == '@'
    && ((List.range n).all fun i =>
         !(decide (b + 1 ≤ i) && decide (i < c - 1)) || isEmailDomChar (cs.getD i ' '))
    && cs.getD (c - 1) ' ' == '.'
    && ((List.range n).all fun i =>
         !(decide (c ≤ i) && decide (i < d)) || isEmailTldChar (cs.getD i ' '))
    && wordBoundary (some (cs.getD (d - 1) ' '))
         (if d = n then false else isWordChar (cs.getD d ' '))

/-- The `sensitivePatterns` array of the constructor, evaluated in source
order on the lowered text: `/password/i`, `/secret/i`, `/token/i`,
`/key\s*[:=]/i`, `/api[_-]?key/i`, `/[0-9]{16}/`, and the email pattern. -/
def sensitivePatternsMatch (content : String) : Bool :=
  let cs := lowerChars content
  containsSeq ("password".toList) cs
  || containsSeq ("secret".toList) cs
  || containsSeq ("token".toList) cs
  || cs.tails.any keyAssignAt
  || cs.tails.any apiKeyAt
  || cs.tails.any digitRun16At
  || emailMatch cs

/-- `maxContentLength` from the constructor: 50 KB. -/
def maxContentLength : Nat := 50000

/-- `isContentFiltered(content)`: true when the content is empty (JS
falsiness of `''`), longer than `maxContentLength`, or matches one of the
sensitive patterns. -/
def isContentFiltered (content : String) : Bool :=
  if content = "" then true
  else if maxContentLength < content.length then true
  else sensitivePatternsMatch content

/-- A stored clipboard history entry, as built in `addToHistory`: the content
is truncated to 1000 characters for storage, `preview` is the first 100
characters with newlines replaced by spaces, and `size` is the original
length. -/
structure HistoryItem where
  content : String
  timestamp : Nat
  hash : String
  preview : String
  size : Nat
deriving Repr, DecidableEq

/-- A registered device, as built in the `register-device` socket handler. -/
structure Device where
  id : String
  name : String
  devType : String
  autoSync : Bool
  connectedAt : Nat
deriving Repr, DecidableEq

/-- An entry of `syncQueue`, as pushed in `updateClipboard`. -/
structure QueuedUpdate where
  content : String
  sourceId : String
  autoWrite : Bool
  timestamp : Nat
  hash : String
deriving Repr, DecidableEq

/-- The payload of a `clipboard-update` emission: `{content, from, timestamp,
hash, autoWrite}`, plus the `force` flag only `forceSyncToDevice` sets. -/
structure UpdateMsg where
  content : String
  fromId : String
  timestamp : Nat
  hash : String
  autoWrite : Bool
  force : Bool
deriving Repr, DecidableEq

/-- Observable side effects of the engine, in emission order: an OS clipboard
write attempt (`ok` records whether `clipboardy.writeSync` succeeded or
threw), a `clipboard-history` broadcast to every socket, a `device-list`
broadcast, and a `clipboard-update` emission to one target socket. -/
inductive Event where
  | clipboardWrite (content : String) (ok : Bool)
  | historyBroadcast (history : List HistoryItem)
  | deviceList (devices : List Device)
  | deviceUpdate (target : String) (msg : UpdateMsg)
deriving Repr, DecidableEq

/-- Which `return` path of `updateClipboard` was taken.  The JS method
returns `undefined` on every path; this value names the path, which is
observable through the state change and the events emitted. -/
inductive SyncResult where
  | ignoredDisabled
  | ignoredDuplicate
  | queued
  | ignoredConflict
  | rejectedFiltered
  | accepted
deriving Repr, DecidableEq

/-- The mutable instance fields of `EnhancedClipboardServer` the sync engine
reads or writes.  `conflictResolver` is the insertion-ordered map from
content hash to the time it was last accepted. -/
structure ServerState where
  connectedDevices : List Device
  clipboardHistory : List HistoryItem
  maxHistorySize : Nat
  lastClipboard : String
  lastClipboardHash : String
  syncQueue : List QueuedUpdate
  processing : Bool
  conflictResolver : List (String × Nat)
  lastSyncTime : Nat
  minSyncInterval : Nat
  autoSyncEnabled : Bool
  totalSyncs : Nat
deriving Repr, DecidableEq

/-- `Map.get` on the conflict-resolver map. -/
def mapGet? (m : List (String × Nat)) (k : String) : Option Nat :=
  (m.find? fun p => p.1 == k).map Prod.snd

/-- `Map.set` on the conflict-resolver map: overwrite in place when the key
exists (JS `Map.set` keeps the original insertion position), append
otherwise. -/
def mapSet (m : List (String × Nat)) (k : String) (v : Nat) : List (String × Nat) :=
  if m.any fun p => p.1 == k then m.map fun p => if p.1 == k then (k, v) else p
  else m ++ [(k, v)]

/-- The step-4 conflict test: the hash is present in the conflict map with a
timestamp less than the 1000 ms conflict window ago. -/
def conflictHit (m : List (String × Nat)) (h : String) (now : Nat) : Bool :=
  match mapGet? m h with
  | some t => decide (now - t < 1000)
  | none => false

/-- `substring(0, n)` as a character-list truncation (identical to the JS
call on the ASCII payloads considered here). -/
def takeChars (s : String) (n : Nat) : String :=
  String.mk (s.toList.take n)

/-- The history item constructed for new content in `addToHistory`. -/
def mkHistoryItem (content : String) (hash : String) (now : Nat) : HistoryItem :=
  { content := takeChars content 1000
    timestamp := now
    hash := hash
    preview := String.mk ((content.toList.take 100).map fun c => if c = '\n' then ' ' else c)
    size := content.length }

/-- `splice(i, 1)` followed by `unshift` of the removed element. -/
def moveToFront (l : List HistoryItem) (i : Nat) : List HistoryItem :=
  match l.get? i with
  | some item => item :: l.eraseIdx i
  | none => l

/-- `this.clipboardHistory = this.clipboardHistory.slice(0, max)` when the
length exceeds the cap. -/
def trimHistory (cap : Nat) (l : List HistoryItem) : List HistoryItem :=
  if cap < l.length then l.take cap else l

/-- `addToHistory(content)`: skip empty content; no-op when the hash is
already at the front; move an existing item (unchanged) to the front when
the hash occurs elsewhere; otherwise insert a fresh item at the front.  On
the two mutating paths the history is trimmed to the cap and re-broadcast
(`io.emit('clipboard-history', ...)`). -/
def addToHistory (genHash : String → String) (st : ServerState) (content : String)
    (now : Nat) : ServerState × List Event :=
  if content = "" then (st, [])
  else
    let hash := genHash content
    match st.clipboardHistory.findIdx? (fun item => item.hash == hash) with
    | some 0 => (st, [])
    | some idx =>
      let newHist := trimHistory st.maxHistorySize (moveToFront st.clipboardHistory idx)
      ({st with clipboardHistory := newHist}, [Event.historyBroadcast newHist])
    | none =>
      let newHist :=
        trimHistory st.maxHistorySize (mkHistoryItem content hash now :: st.clipboardHistory)
      ({st with clipboardHistory := newHist}, [Event.historyBroadcast newHist])

/-- `updateClipboard(content, sourceId, autoWrite)` at wall-clock `now`, with
`writeOk` the outcome the OS clipboard write would have.  In source order:
the auto-sync gate (only `sourceId === 'local'` is exempt), the hash-based
loop suppression, the rate limiter (queue and arm the deferred drain), the
conflict window, the latest-known bookkeeping, the content filter, the
optional OS write (failure caught), `addToHistory`, and the fan-out to every
other auto-sync device. -/
def updateClipboard (genHash : String → String) (writeOk : Bool) (st : ServerState)
    (content : String) (sourceId : String) (autoWrite : Bool) (now : Nat) :
    ServerState × List Event × SyncResult :=
  if !st.autoSyncEnabled && sourceId ≠ "local" then (st, [], .ignoredDisabled)
  else
    let contentHash := genHash content
    if contentHash = st.lastClipboardHash then (st, [], .ignoredDuplicate)
    else if now - st.lastSyncTime < st.minSyncInterval then
      ({st with
          syncQueue := st.syncQueue ++ [⟨content, sourceId, autoWrite, now, contentHash⟩],
          processing := true}, [], .queued)
    else if conflictHit st.conflictResolver contentHash now then (st, [], .ignoredConflict)
    else
      let st1 := {st with
        conflictResolver := mapSet st.conflictResolver contentHash now
        lastSyncTime := now
        lastClipboard := content
        lastClipboardHash := contentHash}
      if isContentFiltered content then (st1, [], .rejectedFiltered)
      else
        let writeEvs :=
          if autoWrite && sourceId ≠ "local" then [Event.clipboardWrite content writeOk]
          else []
        let histOut := addToHistory genHash st1 content now
        let msg : UpdateMsg := ⟨content, sourceId, now, contentHash, true, false⟩
        let devEvs :=
          (histOut.1.connectedDevices.filter fun d => d.id != sourceId && d.autoSync).map
            fun d => Event.deviceUpdate d.id msg
        ({histOut.1 with totalSyncs := histOut.1.totalSyncs + 1},
         writeEvs ++ histOut.2 ++ devEvs, .accepted)

/-- The body of the `setTimeout` callback armed by `processSyncQueue`: pop
the most recent queued update, clear the queue, re-run `updateClipboard` on
it, then drop the `processing` flag. -/
def processSyncQueueFire (genHash : String → String) (writeOk : Bool) (st : ServerState)
    (now : Nat) : ServerState × List Event × Option SyncResult :=
  match st.syncQueue.getLast? with
  | some latest =>
    let st1 := {st with syncQueue := []}
    let out := updateClipboard genHash writeOk st1 latest.content latest.sourceId
      latest.autoWrite now
    ({out.1 with processing := false}, out.2.1, some out.2.2)
  | none => ({st with processing := false}, [], none)

/-- `Map.set` on `connectedDevices`: overwrite in place or append. -/
def upsertDevice (devices : List Device) (d : Device) : List Device :=
  if devices.any fun e => e.id == d.id then
    devices.map fun e => if e.id == d.id then d else e
  else devices ++ [d]

/-- The `register-device` socket handler: store the device, broadcast the
device list and the history, then — whenever `lastClipboard` is non-empty —
immediately emit a `clipboard-update` to the registering socket only,
carrying the last known clipboard value with `from = 'server'` and
`autoWrite = true`. -/
def registerDevice (st : ServerState) (id name devType : String) (autoSync : Bool)
    (now : Nat) : ServerState × List Event :=
  let device : Device := ⟨id, name, devType, autoSync, now⟩
  let newDevices := upsertDevice st.connectedDevices device
  let st1 := {st with connectedDevices := newDevices}
  let greet :=
    if st.lastClipboard ≠ "" then
      [Event.deviceUpdate id ⟨st.lastClipboard, "server", now, st.lastClipboardHash, true, false⟩]
    else []
  (st1, [Event.deviceList newDevices, Event.historyBroadcast st.clipboardHistory] ++ greet)

/-- `forceSyncToDevice(deviceId)`: when `lastClipboard` is non-empty, emit a
`clipboard-update` with the last known value, `from = 'server'`, `autoWrite =
true` and `force = true` to that one device. -/
def forceSyncToDevice (st : ServerState) (deviceId : String) (now : Nat) : List Event :=
  if st.lastClipboard ≠ "" then
    [Event.deviceUpdate deviceId ⟨st.lastClipboard, "server", now, st.lastClipboardHash, true, true⟩]
  else []

/-- The `toggle-auto-sync` socket handler. -/
def toggleDeviceAutoSync (st : ServerState) (id : String) (enabled : Bool) : ServerState :=
  if st.connectedDevices.any fun d => d.id == id then
    {st with connectedDevices :=
      st.connectedDevices.map fun d => if d.id == id then {d with autoSync := enabled} else d}
  else st

/-- The `disconnect` socket handler. -/
def disconnectDevice (st : ServerState) (id : String) : ServerState × List Event :=
  let newDevices := st.connectedDevices.filter fun d => d.id != id
  ({st with connectedDevices := newDevices}, [Event.deviceList newDevices])

/-- The `autoSync` part of the `POST /api/settings` route. -/
def setAutoSyncEnabled (st : ServerState) (b : Bool) : ServerState :=
  {st with autoSyncEnabled := b}

/-- The data object a device sends on its `clipboard-update` socket event.
`autoWrite` holds the already-evaluated `data.autoWrite !== false`; `forced`
is an extra attribute a sender may include. -/
structure IncomingData where
  content : String
  autoWrite : Bool
  forced : Bool
deriving Repr, DecidableEq

/-- The `clipboard-update` socket handler: it forwards `data.content`, the
socket id and `data.autoWrite !== false` to `updateClipboard`; no other
attribute of `data` is read. -/
def handleClipboardUpdateEvent (genHash : String → String) (writeOk : Bool)
    (st : ServerState) (socketId : String) (d : IncomingData) (now : Nat) :
    ServerState × List Event × SyncResult :=
  updateClipboard genHash writeOk st d.content socketId d.autoWrite now

/-- The constructor's initial field values. -/
def initialState : ServerState :=
  { connectedDevices := []
    clipboardHistory := []
    maxHistorySize := 10
    lastClipboard := ""
    lastClipboardHash := ""
    syncQueue := []
    processing := false
    conflictResolver := []
    lastSyncTime := 0
    minSyncInterval := 50
    autoSyncEnabled := true
    totalSyncs := 0 }

/-- Concrete stand-in for the MD5 hex digest used to evaluate witnesses: it
is injective and, like MD5, maps the empty string to a non-empty digest. -/
def tagHash (s : String) : String := "#" ++ s

/-- One externally triggered engine operation. -/
inductive Op where
  | ingest (content sourceId : String) (autoWrite writeOk : Bool) (now : Nat)
  | fire (writeOk : Bool) (now : Nat)
  | register (id name devType : String) (autoSync : Bool) (now : Nat)
  | forceSync (id : String) (now : Nat)
  | toggle (id : String) (enabled : Bool)
  | disconnect (id : String)
  | setAutoSync (b : Bool)

/-- Dispatch of one operation against the engine state. -/
def stepOp (genHash : String → String) (st : ServerState) : Op → ServerState × List Event
  | .ingest content sourceId autoWrite writeOk now =>
    let out := updateClipboard genHash writeOk st content sourceId autoWrite now
    (out.1, out.2.1)
  | .fire writeOk now =>
    let out := processSyncQueueFire genHash writeOk st now
    (out.1, out.2.1)
  | .register id name devType autoSync now => registerDevice st id name devType autoSync now
  | .forceSync id now => (st, forceSyncToDevice st id now)
  | .toggle id enabled => (toggleDeviceAutoSync st id enabled, [])
  | .disconnect id => disconnectDevice st id
  | .setAutoSync b => (setAutoSyncEnabled st b, [])

/-- A whole run: fold the operations, accumulating the emitted events. -/
def run (genHash : String → String) (st : ServerState) : List Op → ServerState × List Event
  | [] => (st, [])
  | op :: ops =>
    let out1 := stepOp genHash st op
    let out2 := run genHash out1.1 ops
    (out2.1, out1.2 ++ out2.2)

/-! ### Derived descriptions of the `updateClipboard` paths -/

/-- The step-5 bookkeeping `updateClipboard` performs before the content
filter runs: conflict-window entry, `lastSyncTime`, `lastClipboard`,
`lastClipboardHash`. -/
def bookkeepState (genHash : String → String) (st : ServerState) (content : String)
    (now : Nat) : ServerState :=
  {st with
    conflictResolver := mapSet st.conflictResolver (genHash content) now
    lastSyncTime := now
    lastClipboard := content
    lastClipboardHash := genHash content}

/-- The full output of `updateClipboard` on the accept path. -/
def acceptOutput (genHash : String → String) (writeOk : Bool) (st : ServerState)
    (content sourceId : String) (autoWrite : Bool) (now : Nat) :
    ServerState × List Event × SyncResult :=
  let st1 := bookkeepState genHash st content now
  let writeEvs :=
    if autoWrite && sourceId ≠ "local" then [Event.clipboardWrite content writeOk] else []
  let histOut := addToHistory genHash st1 content now
  let msg : UpdateMsg := ⟨content, sourceId, now, genHash content, true, false⟩
  let devEvs :=
    (histOut.1.connectedDevices.filter fun d => d.id != sourceId && d.autoSync).map
      fun d => Event.deviceUpdate d.id msg
  ({histOut.1 with totalSyncs := histOut.1.totalSyncs + 1},
   writeEvs ++ histOut.2 ++ devEvs, .accepted)

theorem updateClipboard_dup {genHash : String → String} {writeOk : Bool} {st : ServerState}
    {content sourceId : String} {autoWrite : Bool} {now : Nat}
    (hGate : st.autoSyncEnabled = true ∨ sourceId = "local")
    (hDup : genHash content = st.lastClipboardHash) :
    updateClipboard genHash writeOk st content sourceId autoWrite now
      = (st, [], .ignoredDuplicate) := by
  unfold updateClipboard
  rcases hGate with h | h <;> simp [h, hDup]

theorem updateClipboard_queued {genHash : String → String} {writeOk : Bool} {st : ServerState}
    {content sourceId : String} {autoWrite : Bool} {now : Nat}
    (hGate : st.autoSyncEnabled = true ∨ sourceId = "local")
    (hDup : genHash content ≠ st.lastClipboardHash)
    (hRate : now - st.lastSyncTime < st.minSyncInterval) :
    updateClipboard genHash writeOk st content sourceId autoWrite now
      = ({st with
            syncQueue := st.syncQueue ++ [⟨content, sourceId, autoWrite, now, genHash content⟩],
            processing := true}, [], .queued) := by
  unfold updateClipboard
  rcases hGate with h | h <;> simp [h, hDup, hRate]

theorem updateClipboard_filtered {genHash : String → String} {writeOk : Bool} {st : ServerState}
    {content sourceId : String} {autoWrite : Bool} {now : Nat}
    (hGate : st.autoSyncEnabled = true ∨ sourceId = "local")
    (hDup : genHash content ≠ st.lastClipboardHash)
    (hRate : ¬ (now - st.lastSyncTime < st.minSyncInterval))
    (hConf : conflictHit st.conflictResolver (genHash content) now = false)
    (hFilt : isContentFiltered content = true) :
    updateClipboard genHash writeOk st content sourceId autoWrite now
      = (bookkeepState genHash st content now, [], .rejectedFiltered) := by
  unfold updateClipboard bookkeepState
  rcases hGate with h | h <;> simp [h, hDup, hRate, hConf, hFilt]

theorem updateClipboard_accept {genHash : String → String} {writeOk : Bool} {st : ServerState}
    {content sourceId : String} {autoWrite : Bool} {now : Nat}
    (hGate : st.autoSyncEnabled = true ∨ sourceId = "local")
    (hDup : genHash content ≠ st.lastClipboardHash)
    (hRate : ¬ (now - st.lastSyncTime < st.minSyncInterval))
    (hConf : conflictHit st.conflictResolver (genHash content) now = false)
    (hFilt : isContentFiltered content = false) :
    updateClipboard genHash writeOk st content sourceId autoWrite now
      = acceptOutput genHash writeOk st content sourceId autoWrite now := by
  unfold updateClipboard acceptOutput bookkeepState
  rcases hGate with h | h <;> simp [h, hDup, hRate, hConf, hFilt]

/-! ### Structural lemmas about `addToHistory` -/

theorem addToHistory_state (g : String → String) (st : ServerState) (c : String) (n : Nat) :
    (addToHistory g st c n).1
      = {st with clipboardHistory := (addToHistory g st c n).1.clipboardHistory} := by
  unfold addToHistory
  split
  · rfl
  · dsimp only
    split <;> rfl

theorem addToHistory_events (g : String → String) (st : ServerState) (c : String) (n : Nat) :
    (addToHistory g st c n).2 = [] ∨
    (addToHistory g st c n).2
      = [Event.historyBroadcast (addToHistory g st c n).1.clipboardHistory] := by
  unfold addToHistory
  split
  · exact Or.inl rfl
  · dsimp only
    split
    · exact Or.inl rfl
    · exact Or.inr rfl
    · exact Or.inr rfl

theorem mem_trimHistory {cap : Nat} {l : List HistoryItem} :
    ∀ it ∈ trimHistory cap l, it ∈ l := by
  intro it h
  unfold trimHistory at h
  by_cases hc : cap < l.length
  · rw [if_pos hc] at h; exact List.mem_of_mem_take h
  · rw [if_neg hc] at h; exact h

theorem mem_moveToFront {l : List HistoryItem} {i : Nat} :
    ∀ it ∈ moveToFront l i, it ∈ l := by
  intro it h
  unfold moveToFront at h
  revert h
  split
  · rename_i item hget
    intro h
    rcases List.mem_cons.mp h with h | h
    · subst h
      exact List.getElem?_mem (List.get?_eq_getElem? _ _ ▸ hget)
    · exact List.mem_of_mem_eraseIdx h
  · exact fun h => h

theorem addToHistory_mem (g : String → String) (st : ServerState) (c : String) (n : Nat) :
    ∀ it ∈ (addToHistory g st c n).1.clipboardHistory,
      it = mkHistoryItem c (g c) n ∨ it ∈ st.clipboardHistory := by
  unfold addToHistory
  split
  · exact fun it h => Or.inr h
  · dsimp only
    split
    · exact fun it h => Or.inr h
    · intro it h
      exact Or.inr (mem_moveToFront _ (mem_trimHistory _ h))
    · intro it h
      rcases List.mem_cons.mp (mem_trimHistory _ h) with h | h
      · exact Or.inl h
      · exact Or.inr h

theorem findIdx?_front {p : HistoryItem → Bool} {it : HistoryItem} {l : List HistoryItem}
    (hhead : l.head? = some it) (hp : p it = true) :
    l.findIdx? p = some 0 := by
  cases l with
  | nil => simp at hhead
  | cons a t =>
    simp only [List.head?_cons, Option.some.injEq] at hhead
    subst hhead
    rw [List.findIdx?_cons, if_pos hp]

theorem addToHistory_noop_front {g : String → String} {st : ServerState} {c : String}
    {n : Nat} {it : HistoryItem}
    (hne : c ≠ "") (hhead : st.clipboardHistory.head? = some it) (hhash : it.hash = g c) :
    addToHistory g st c n = (st, []) := by
  have hfind : st.clipboardHistory.findIdx? (fun item => item.hash == g c) = some 0 :=
    findIdx?_front hhead (by simp [hhash])
  unfold addToHistory
  rw [if_neg hne]
  dsimp only
  rw [hfind]

theorem findIdx?_mid {p : HistoryItem → Bool} {pre post : List HistoryItem}
    {it : HistoryItem} (hpre : ∀ x ∈ pre, p x = false) (hp : p it = true) :
    (pre ++ it :: post).findIdx? p = some pre.length := by
  rw [List.findIdx?_append]
  rw [List.findIdx?_eq_none_iff.mpr hpre]
  have h0 : (it :: post).findIdx? p = some 0 := by
    rw [List.findIdx?_cons, if_pos hp]
  rw [h0]
  simp

theorem eraseIdx_append_cons (pre : List HistoryItem) (x : HistoryItem)
    (post : List HistoryItem) :
    (pre ++ x :: post).eraseIdx pre.length = pre ++ post := by
  induction pre with
  | nil => rfl
  | cons a t ih => simp [List.eraseIdx_cons_succ, ih]

theorem get?_append_cons (pre : List HistoryItem) (x : HistoryItem)
    (post : List HistoryItem) :
    (pre ++ x :: post).get? pre.length = some x := by
  rw [List.get?_eq_getElem?, List.getElem?_append_right (Nat.le_refl _)]
  simp

theorem addToHistory_promote {g : String → String} {st : ServerState} {c : String}
    {n : Nat} {q : HistoryItem} {pre post : List HistoryItem} {it : HistoryItem}
    (hne : c ≠ "") (hsplit : st.clipboardHistory = (q :: pre) ++ it :: post)
    (hpre : ∀ x ∈ q :: pre, x.hash ≠ g c) (hhash : it.hash = g c) :
    addToHistory g st c n
      = ({st with clipboardHistory :=
            trimHistory st.maxHistorySize (it :: (q :: pre) ++ post)},
         [Event.historyBroadcast (trimHistory st.maxHistorySize (it :: (q :: pre) ++ post))]) := by
  have hfind : st.clipboardHistory.findIdx? (fun item => item.hash == g c)
      = some (q :: pre).length := by
    rw [hsplit]
    exact findIdx?_mid (fun x hx => by simp [hpre x hx]) (by simp [hhash])
  have hmove : moveToFront st.clipboardHistory (q :: pre).length = it :: (q :: pre) ++ post := by
    unfold moveToFront
    rw [hsplit, get?_append_cons, eraseIdx_append_cons]
    rfl
  unfold addToHistory
  rw [if_neg hne]
  dsimp only
  split
  · rename_i heq
    rw [hfind] at heq
    simp at heq
  · rename_i idx hside heq
    rw [hfind] at heq
    have hidx : idx = (q :: pre).length := (Option.some.inj heq).symm
    subst hidx
    rw [hmove]
  · rename_i heq
    rw [hfind] at heq
    simp at heq

theorem addToHistory_fresh {g : String → String} {st : ServerState} {c : String} {n : Nat}
    (hne : c ≠ "") (hnot : ∀ x ∈ st.clipboardHistory, x.hash ≠ g c) :
    addToHistory g st c n
      = ({st with clipboardHistory :=
            trimHistory st.maxHistorySize (mkHistoryItem c (g c) n :: st.clipboardHistory)},
         [Event.historyBroadcast
            (trimHistory st.maxHistorySize (mkHistoryItem c (g c) n :: st.clipboardHistory))]) := by
  have hfind : st.clipboardHistory.findIdx? (fun item => item.hash == g c) = none :=
    List.findIdx?_eq_none_iff.mpr (fun x hx => by simp [hnot x hx])
  unfold addToHistory
  rw [if_neg hne]
  dsimp only
  rw [hfind]

theorem head?_trimHistory {cap : Nat} {l : List HistoryItem} (hcap : 0 < cap) :
    (trimHistory cap l).head? = l.head? := by
  unfold trimHistory
  split
  · rw [List.head?_take, if_neg (Nat.pos_iff_ne_zero.mp hcap)]
  · rfl

theorem addToHistory_front_hash {g : String → String} {st : ServerState} {c : String}
    {n : Nat} (hne : c ≠ "") (hcap : 0 < st.maxHistorySize) :
    ∃ it, (addToHistory g st c n).1.clipboardHistory.head? = some it ∧ it.hash = g c := by
  unfold addToHistory
  rw [if_neg hne]
  dsimp only
  split
  · rename_i heq
    rcases List.findIdx?_eq_some_iff_getElem.mp heq with ⟨hlt, hp, -⟩
    refine ⟨st.clipboardHistory[0], ?_, by simpa using hp⟩
    rw [List.head?_eq_getElem?, List.getElem?_eq_getElem hlt]
  · rename_i idx hside heq
    rcases List.findIdx?_eq_some_iff_getElem.mp heq with ⟨hlt, hp, -⟩
    refine ⟨st.clipboardHistory[idx], ?_, by simpa using hp⟩
    dsimp only
    rw [head?_trimHistory hcap]
    unfold moveToFront
    rw [List.get?_eq_getElem?, List.getElem?_eq_getElem hlt]
    rfl
  · refine ⟨mkHistoryItem c (g c) n, ?_, rfl⟩
    dsimp only
    rw [head?_trimHistory hcap]
    rfl

/-- Sequential recording of a batch of contents (each with its timestamp)
into the history, the way consecutive accepted updates call `addToHistory`. -/
def recordAll (g : String → String) (st : ServerState) (cs : List (String × Nat)) :
    ServerState :=
  cs.foldl (fun s p => (addToHistory g s p.1 p.2).1) st

theorem addToHistory_maxHistorySize (g : String → String) (st : ServerState) (c : String)
    (n : Nat) : (addToHistory g st c n).1.maxHistorySize = st.maxHistorySize := by
  rw [addToHistory_state]

theorem trim_cons_take (cap : Nat) (x : HistoryItem) (L : List HistoryItem) :
    trimHistory cap (x :: L.take cap) = (x :: L).take cap := by
  cases cap with
  | zero => simp [trimHistory]
  | succ k =>
    unfold trimHistory
    by_cases hk : k < L.length
    · have hcond : k + 1 < (x :: L.take (k + 1)).length := by
        simp only [List.length_cons, List.length_take]
        omega
      rw [if_pos hcond, List.take_succ_cons, List.take_succ_cons, List.take_take]
      have hmin : k ⊓ (k + 1) = k := by omega
      rw [hmin]
    · have hlen : L.length ≤ k := Nat.le_of_not_lt hk
      have hcond : ¬ (k + 1 < (x :: L.take (k + 1)).length) := by
        simp only [List.length_cons, List.length_take]
        omega
      rw [if_neg hcond, List.take_of_length_le (Nat.le_succ_of_le hlen),
        List.take_succ_cons, List.take_of_length_le hlen]



theorem recordAll_distinct (g : String → String) (cs : List (String × Nat)) :
    ∀ (st : ServerState) (ps : List (String × Nat)),
    st.clipboardHistory
        = (ps.reverse.map fun p => mkHistoryItem p.1 (g p.1) p.2).take st.maxHistorySize →
    (∀ p ∈ ps ++ cs, p.1 ≠ "") →
    ((ps ++ cs).map fun p => g p.1).Nodup →
    (recordAll g st cs).clipboardHistory
        = ((ps ++ cs).reverse.map fun p => mkHistoryItem p.1 (g p.1) p.2).take
            st.maxHistorySize
    ∧ (recordAll g st cs).maxHistorySize = st.maxHistorySize := by
  induction cs with
  | nil =>
    intro st ps hh _ _
    constructor
    · simpa [recordAll] using hh
    · rfl
  | cons c cs ih =>
    intro st ps hh hne hnd
    have hcne : c.1 ≠ "" := hne c (by simp)
    have hfreshH : ∀ x ∈ st.clipboardHistory, x.hash ≠ g c.1 := by
      intro x hx
      rw [hh] at hx
      rcases List.mem_map.mp (List.mem_of_mem_take hx) with ⟨p, hp, rfl⟩
      have hp' : p ∈ ps := List.mem_reverse.mp hp
      intro hcontra
      have hmm : g p.1 = g c.1 := hcontra
      rw [List.map_append] at hnd
      rcases List.nodup_append.mp hnd with ⟨-, -, hdisj⟩
      exact hdisj (List.mem_map_of_mem _ hp') (hmm ▸ List.mem_map_of_mem _ (by simp))
    have hstep := @addToHistory_fresh g st c.1 c.2 hcne hfreshH
    have hcap : (addToHistory g st c.1 c.2).1.maxHistorySize = st.maxHistorySize :=
      addToHistory_maxHistorySize g st c.1 c.2
    have hh' : (addToHistory g st c.1 c.2).1.clipboardHistory
        = ((ps ++ [c]).reverse.map fun p => mkHistoryItem p.1 (g p.1) p.2).take
            (addToHistory g st c.1 c.2).1.maxHistorySize := by
      rw [hstep]
      dsimp only
      rw [hh, trim_cons_take, List.reverse_append]
      rfl
    have hrec : recordAll g st (c :: cs) = recordAll g (addToHistory g st c.1 c.2).1 cs := rfl
    have := ih (addToHistory g st c.1 c.2).1 (ps ++ [c]) hh'
      (by intro p hp; exact hne p (by simpa [List.append_assoc] using hp))
      (by simpa [List.append_assoc] using hnd)
    rw [hrec]
    rcases this with ⟨h1, h2⟩
    constructor
    · rw [h1, hcap]
      congr 2
      simp [List.append_assoc]
    · rw [h2, hcap]

theorem updateClipboard_disabled {genHash : String → String} {writeOk : Bool}
    {st : ServerState} {content sourceId : String} {autoWrite : Bool} {now : Nat}
    (hA : st.autoSyncEnabled = false) (hs : sourceId ≠ "local") :
    updateClipboard genHash writeOk st content sourceId autoWrite now
      = (st, [], .ignoredDisabled) := by
  unfold updateClipboard
  simp [hA, hs]

theorem updateClipboard_conflict {genHash : String → String} {writeOk : Bool}
    {st : ServerState} {content sourceId : String} {autoWrite : Bool} {now : Nat}
    (hGate : st.autoSyncEnabled = true ∨ sourceId = "local")
    (hDup : genHash content ≠ st.lastClipboardHash)
    (hRate : ¬ (now - st.lastSyncTime < st.minSyncInterval))
    (hConf : conflictHit st.conflictResolver (genHash content) now = true) :
    updateClipboard genHash writeOk st content sourceId autoWrite now
      = (st, [], .ignoredConflict) := by
  unfold updateClipboard
  rcases hGate with h | h <;> simp [h, hDup, hRate, hConf]

/-- Exhaustive description of the six return paths of `updateClipboard`. -/
theorem updateClipboard_resolve (g : String → String) (wk : Bool) (st : ServerState)
    (c s : String) (a : Bool) (n : Nat) :
    updateClipboard g wk st c s a n = (st, [], .ignoredDisabled) ∨
    updateClipboard g wk st c s a n = (st, [], .ignoredDuplicate) ∨
    updateClipboard g wk st c s a n
      = ({st with syncQueue := st.syncQueue ++ [⟨c, s, a, n, g c⟩], processing := true},
         [], .queued) ∨
    updateClipboard g wk st c s a n = (st, [], .ignoredConflict) ∨
    (isContentFiltered c = true ∧
      updateClipboard g wk st c s a n = (bookkeepState g st c n, [], .rejectedFiltered)) ∨
    (isContentFiltered c = false ∧
      updateClipboard g wk st c s a n = acceptOutput g wk st c s a n) := by
  by_cases hA : st.autoSyncEnabled = true ∨ s = "local"
  · by_cases hDup : g c = st.lastClipboardHash
    · exact Or.inr (Or.inl (updateClipboard_dup hA hDup))
    · by_cases hRate : n - st.lastSyncTime < st.minSyncInterval
      · exact Or.inr (Or.inr (Or.inl (updateClipboard_queued hA hDup hRate)))
      · by_cases hConf : conflictHit st.conflictResolver (g c) n = true
        · exact Or.inr (Or.inr (Or.inr (Or.inl
            (updateClipboard_conflict hA hDup hRate hConf))))
        · have hConf' : conflictHit st.conflictResolver (g c) n = false :=
            Bool.eq_false_iff.mpr hConf
          cases hFilt : isContentFiltered c with
          | true =>
            exact Or.inr (Or.inr (Or.inr (Or.inr (Or.inl
              ⟨rfl, updateClipboard_filtered hA hDup hRate hConf' hFilt⟩))))
          | false =>
            exact Or.inr (Or.inr (Or.inr (Or.inr (Or.inr
              ⟨rfl, updateClipboard_accept hA hDup hRate hConf' hFilt⟩))))
  · push_neg at hA
    exact Or.inl (updateClipboard_disabled (Bool.eq_false_iff.mpr hA.1) hA.2)

theorem acceptOutput_fst (g : String → String) (wk : Bool) (st : ServerState)
    (c s : String) (a : Bool) (n : Nat) :
    (acceptOutput g wk st c s a n).1
      = {st with
          clipboardHistory := (addToHistory g (bookkeepState g st c n) c n).1.clipboardHistory
          conflictResolver := mapSet st.conflictResolver (g c) n
          lastSyncTime := n
          lastClipboard := c
          lastClipboardHash := g c
          totalSyncs := st.totalSyncs + 1} := by
  unfold acceptOutput
  dsimp only
  rw [addToHistory_state]
  rfl

theorem acceptOutput_events (g : String → String) (wk : Bool) (st : ServerState)
    (c s : String) (a : Bool) (n : Nat) :
    (acceptOutput g wk st c s a n).2.1
      = (if a && s ≠ "local" then [Event.clipboardWrite c wk] else [])
        ++ (addToHistory g (bookkeepState g st c n) c n).2
        ++ ((st.connectedDevices.filter fun d => d.id != s && d.autoSync).map
            fun d => Event.deviceUpdate d.id ⟨c, s, n, g c, true, false⟩) := by
  unfold acceptOutput
  dsimp only
  rw [addToHistory_state]
  rfl

/-- Provenance invariant of the history store: every stored item was built by
`mkHistoryItem` from some content the filter accepted. -/
def histProvenance (g : String → String) (l : List HistoryItem) : Prop :=
  ∀ it ∈ l, ∃ c t, isContentFiltered c = false ∧ it = mkHistoryItem c (g c) t

theorem histProvenance_addToHistory {g : String → String} {st : ServerState} {c : String}
    {n : Nat} (hf : isContentFiltered c = false)
    (hinv : histProvenance g st.clipboardHistory) :
    histProvenance g (addToHistory g st c n).1.clipboardHistory := by
  intro it hit
  rcases addToHistory_mem g st c n it hit with h | h
  · exact ⟨c, n, hf, h⟩
  · exact hinv it h

theorem histProvenance_updateClipboard {g : String → String} {wk : Bool} {st : ServerState}
    {c s : String} {a : Bool} {n : Nat}
    (hinv : histProvenance g st.clipboardHistory) :
    histProvenance g (updateClipboard g wk st c s a n).1.clipboardHistory := by
  rcases updateClipboard_resolve g wk st c s a n with h | h | h | h | ⟨hf, h⟩ | ⟨hf, h⟩
  · rw [h]; exact hinv
  · rw [h]; exact hinv
  · rw [h]; exact hinv
  · rw [h]; exact hinv
  · rw [h]; exact hinv
  · rw [h, acceptOutput_fst]
    exact histProvenance_addToHistory hf hinv

theorem histProvenance_stepOp {g : String → String} {st : ServerState} (op : Op)
    (hinv : histProvenance g st.clipboardHistory) :
    histProvenance g (stepOp g st op).1.clipboardHistory := by
  cases op with
  | ingest c s a wk n => exact histProvenance_updateClipboard hinv
  | fire wk n =>
    show histProvenance g (processSyncQueueFire g wk st n).1.clipboardHistory
    unfold processSyncQueueFire
    cases hq : st.syncQueue.getLast? with
    | none => exact hinv
    | some latest =>
      dsimp only
      exact histProvenance_updateClipboard hinv
  | register id name devType autoSync now => exact hinv
  | forceSync id now => exact hinv
  | toggle id enabled =>
    show histProvenance g (toggleDeviceAutoSync st id enabled).clipboardHistory
    unfold toggleDeviceAutoSync
    split
    · exact hinv
    · exact hinv
  | disconnect id => exact hinv
  | setAutoSync b => exact hinv

theorem histProvenance_run {g : String → String} (ops : List Op) :
    ∀ st : ServerState, histProvenance g st.clipboardHistory →
      histProvenance g (run g st ops).1.clipboardHistory := by
  induction ops with
  | nil => exact fun st h => h
  | cons op ops ih => exact fun st h => ih _ (histProvenance_stepOp op h)

/-- The socket ids a list of events sends `clipboard-update` messages to. -/
def updateTargets (evs : List Event) : List String :=
  evs.filterMap fun e =>
    match e with
    | Event.deviceUpdate t _ => some t
    | _ => none

theorem updateTargets_append (l1 l2 : List Event) :
    updateTargets (l1 ++ l2) = updateTargets l1 ++ updateTargets l2 :=
  List.filterMap_append _ _ _

theorem updateTargets_addToHistory (g : String → String) (st : ServerState) (c : String)
    (n : Nat) : updateTargets (addToHistory g st c n).2 = [] := by
  rcases addToHistory_events g st c n with h | h <;> rw [h] <;> rfl

theorem acceptOutput_targets (g : String → String) (wk : Bool) (st : ServerState)
    (c s : String) (a : Bool) (n : Nat) :
    updateTargets (acceptOutput g wk st c s a n).2.1
      = (st.connectedDevices.filter fun d => d.id != s && d.autoSync).map
          fun d => d.id := by
  rw [acceptOutput_events, updateTargets_append, updateTargets_append,
    updateTargets_addToHistory]
  have h1 : updateTargets
      (if a && s ≠ "local" then [Event.clipboardWrite c wk] else []) = [] := by
    split <;> rfl
  rw [h1]
  have h2 : ∀ l : List Device,
      updateTargets (l.map fun d => Event.deviceUpdate d.id ⟨c, s, n, g c, true, false⟩)
        = l.map fun d => d.id := by
    intro l
    induction l with
    | nil => rfl
    | cons d t ih => simpa [updateTargets, List.filterMap_cons] using ih
  rw [h2]
  rfl

theorem mem_acceptOutput_deviceUpdate {g : String → String} {wk : Bool} {st : ServerState}
    {c s : String} {a : Bool} {n : Nat} {t : String} {m : UpdateMsg}
    (hm : Event.deviceUpdate t m ∈ (acceptOutput g wk st c s a n).2.1) :
    m = ⟨c, s, n, g c, true, false⟩
    ∧ ∃ d ∈ st.connectedDevices, d.id = t ∧ d.autoSync = true ∧ d.id ≠ s := by
  rw [acceptOutput_events] at hm
  rcases List.mem_append.mp hm with hm | hm
  · rcases List.mem_append.mp hm with hm | hm
    · revert hm
      split <;> intro hm <;> simp at hm
    · rcases addToHistory_events g (bookkeepState g st c n) c n with h | h <;>
        rw [h] at hm <;> simp at hm
  · rcases List.mem_map.mp hm with ⟨d, hd, hEq⟩
    have hd' := List.mem_filter.mp hd
    injection hEq with h1 h2
    refine ⟨h2.symm, d, hd'.1, h1, ?_, ?_⟩
    · have := hd'.2
      simp only [Bool.and_eq_true] at this
      exact this.2
    · have := hd'.2
      simp only [Bool.and_eq_true, bne_iff_ne] at this
      exact this.1

/-- A `clipboard-update` emitted by `updateClipboard` carries exactly the
ingested content, which the filter necessarily accepted. -/
theorem updateClipboard_deviceUpdate {g : String → String} {wk : Bool} {st : ServerState}
    {c s : String} {a : Bool} {n : Nat} {t : String} {m : UpdateMsg}
    (hm : Event.deviceUpdate t m ∈ (updateClipboard g wk st c s a n).2.1) :
    m.content = c ∧ isContentFiltered c = false := by
  rcases updateClipboard_resolve g wk st c s a n with h | h | h | h | ⟨hf, h⟩ | ⟨hf, h⟩ <;>
    rw [h] at hm
  · simp at hm
  · simp at hm
  · simp at hm
  · simp at hm
  · simp at hm
  · rcases mem_acceptOutput_deviceUpdate hm with ⟨hmEq, -⟩
    rw [hmEq]
    exact ⟨rfl, hf⟩

/-- Replace the recorded outcome of the OS clipboard write event. -/
def setWriteOutcome (ok : Bool) : Event → Event
  | Event.clipboardWrite c _ => Event.clipboardWrite c ok
  | e => e

theorem map_setWriteOutcome_addToHistory (ok : Bool) (g : String → String)
    (st : ServerState) (c : String) (n : Nat) :
    (addToHistory g st c n).2.map (setWriteOutcome ok) = (addToHistory g st c n).2 := by
  rcases addToHistory_events g st c n with h | h <;> rw [h] <;> rfl

/-- The outcome of the OS clipboard write influences nothing but the recorded
outcome on the write event itself: state, result and every other event are
those of a successful write. -/
theorem updateClipboard_writeOk (g : String → String) (wk : Bool) (st : ServerState)
    (c s : String) (a : Bool) (n : Nat) :
    updateClipboard g wk st c s a n
      = ((updateClipboard g true st c s a n).1,
         ((updateClipboard g true st c s a n).2.1).map (setWriteOutcome wk),
         (updateClipboard g true st c s a n).2.2) := by
  by_cases hA : st.autoSyncEnabled = true ∨ s = "local"
  · by_cases hDup : g c = st.lastClipboardHash
    · rw [updateClipboard_dup hA hDup, updateClipboard_dup hA hDup]
      rfl
    · by_cases hRate : n - st.lastSyncTime < st.minSyncInterval
      · rw [updateClipboard_queued hA hDup hRate, updateClipboard_queued hA hDup hRate]
        rfl
      · by_cases hConf : conflictHit st.conflictResolver (g c) n = true
        · rw [updateClipboard_conflict hA hDup hRate hConf,
            updateClipboard_conflict hA hDup hRate hConf]
          rfl
        · have hConf' : conflictHit st.conflictResolver (g c) n = false :=
            Bool.eq_false_iff.mpr hConf
          cases hFilt : isContentFiltered c with
          | true =>
            rw [updateClipboard_filtered hA hDup hRate hConf' hFilt,
              updateClipboard_filtered hA hDup hRate hConf' hFilt]
            rfl
          | false =>
            rw [updateClipboard_accept hA hDup hRate hConf' hFilt,
              updateClipboard_accept hA hDup hRate hConf' hFilt]
            rw [Prod.ext_iff, Prod.ext_iff]
            refine ⟨rfl, ?_, rfl⟩
            rw [acceptOutput_events, acceptOutput_events, List.map_append,
              List.map_append, map_setWriteOutcome_addToHistory]
            have hdev : ((st.connectedDevices.filter fun d => d.id != s && d.autoSync).map
                  fun d => Event.deviceUpdate d.id ⟨c, s, n, g c, true, false⟩).map
                    (setWriteOutcome wk)
                = (st.connectedDevices.filter fun d => d.id != s && d.autoSync).map
                    fun d => Event.deviceUpdate d.id ⟨c, s, n, g c, true, false⟩ := by
              rw [List.map_map]
              rfl
            rw [hdev]
            have hw : ((if a && s ≠ "local" then [Event.clipboardWrite c true] else []).map
                  (setWriteOutcome wk))
                = (if a && s ≠ "local" then [Event.clipboardWrite c wk] else []) := by
              split <;> rfl
            rw [hw]
  · push_neg at hA
    rw [updateClipboard_disabled (Bool.eq_false_iff.mpr hA.1) hA.2,
      updateClipboard_disabled (Bool.eq_false_iff.mpr hA.1) hA.2]
    rfl

theorem isContentFiltered_empty : isContentFiltered "" = true := by decide

/-- C2: ingesting an update that passes every stage and then immediately
re-ingesting the identical content — from any source, with any autoWrite
flag, at any later time — yields one accepted path and one silent
hash-duplicate discard: the second call returns the state unchanged with no
events, so no second broadcast can occur. -/
theorem C2_duplicate_ingest_ignored (g : String → String) (wk1 wk2 : Bool)
    (st : ServerState) (c s1 s2 : String) (a1 a2 : Bool) (n1 n2 : Nat)
    (hA : st.autoSyncEnabled = true)
    (hDup : g c ≠ st.lastClipboardHash)
    (hRate : ¬ (n1 - st.lastSyncTime < st.minSyncInterval))
    (hConf : conflictHit st.conflictResolver (g c) n1 = false)
    (hFilt : isContentFiltered c = false) :
    (updateClipboard g wk1 st c s1 a1 n1).2.2 = .accepted
    ∧ updateClipboard g wk2 (updateClipboard g wk1 st c s1 a1 n1).1 c s2 a2 n2
        = ((updateClipboard g wk1 st c s1 a1 n1).1, [], .ignoredDuplicate) := by
  have h1 := @updateClipboard_accept g wk1 st c s1 a1 n1 (Or.inl hA) hDup hRate hConf hFilt
  constructor
  · rw [h1]
    rfl
  · have hA' : (updateClipboard g wk1 st c s1 a1 n1).1.autoSyncEnabled = true := by
      rw [h1, acceptOutput_fst]
      exact hA
    have hD' : g c = (updateClipboard g wk1 st c s1 a1 n1).1.lastClipboardHash := by
      rw [h1, acceptOutput_fst]
    exact updateClipboard_dup (Or.inl hA') hD'

/-- C2 witness at a concrete run. -/
theorem C2_duplicate_ingest_ignored_witness :
    (updateClipboard tagHash true initialState "hello" "devA" true 1000).2.2 = .accepted
    ∧ updateClipboard tagHash true
        (updateClipboard tagHash true initialState "hello" "devA" true 1000).1
        "hello" "devB" true 1001
        = ((updateClipboard tagHash true initialState "hello" "devA" true 1000).1,
           [], .ignoredDuplicate) :=
  C2_duplicate_ingest_ignored tagHash true true initialState "hello" "devA" "devB"
    true true 1000 1001 (by decide) (by decide) (by decide) (by decide) (by decide)

/-- C6 counterexample: with the global switch off, an update from the
explicit API path (`sourceId = 'api'`) is NOT processed — it is ignored with
no state change and no events, contradicting the claim that the API path is
exempt from the pause. -/
theorem C6_counterexample :
    updateClipboard tagHash true {initialState with autoSyncEnabled := false}
        "hello" "api" true 1000
      = ({initialState with autoSyncEnabled := false}, [], .ignoredDisabled) := by decide

/-- C6 amended: when `autoSyncEnabled` is false, every update whose source is
not the sentinel `'local'` — including the API path — is ignored without any
state change or event, and only a `'local'` update passes the gate. -/
theorem C6_pause_gate (g : String → String) (wk : Bool) (st : ServerState)
    (c s : String) (a : Bool) (n : Nat) (hA : st.autoSyncEnabled = false) :
    (s ≠ "local" → updateClipboard g wk st c s a n = (st, [], .ignoredDisabled))
    ∧ (updateClipboard g wk st c "local" a n).2.2 ≠ .ignoredDisabled := by
  constructor
  · exact fun hs => updateClipboard_disabled hA hs
  · have hGate : st.autoSyncEnabled = true ∨ ("local" : String) = "local" := Or.inr rfl
    by_cases hDup : g c = st.lastClipboardHash
    · rw [updateClipboard_dup hGate hDup]
      simp
    · by_cases hRate : n - st.lastSyncTime < st.minSyncInterval
      · rw [updateClipboard_queued hGate hDup hRate]
        simp
      · by_cases hConf : conflictHit st.conflictResolver (g c) n = true
        · rw [updateClipboard_conflict hGate hDup hRate hConf]
          simp
        · have hConf' : conflictHit st.conflictResolver (g c) n = false :=
            Bool.eq_false_iff.mpr hConf
          cases hFilt : isContentFiltered c with
          | true =>
            rw [updateClipboard_filtered hGate hDup hRate hConf' hFilt]
            simp
          | false =>
            rw [updateClipboard_accept hGate hDup hRate hConf' hFilt]
            unfold acceptOutput
            simp

/-- C6 witness at a concrete paused state. -/
theorem C6_pause_gate_witness :
    updateClipboard tagHash true {initialState with autoSyncEnabled := false}
        "hello" "api" true 1000
      = ({initialState with autoSyncEnabled := false}, [], .ignoredDisabled)
    ∧ (updateClipboard tagHash true {initialState with autoSyncEnabled := false}
        "hello" "local" true 1000).2.2 ≠ .ignoredDisabled := by
  have h := C6_pause_gate tagHash true {initialState with autoSyncEnabled := false}
    "hello" "api" true 1000 rfl
  exact ⟨h.1 (by decide), h.2⟩

/-- C7 counterexample: an update whose data carries `forced = true`, arriving
20 ms after the last accepted update, is still pushed onto the queue and
returns the queued path — there is no rate-limit bypass for forced
updates. -/
theorem C7_counterexample :
    (handleClipboardUpdateEvent tagHash true {initialState with lastSyncTime := 1000}
        "devA" ⟨"hello", true, true⟩ 1020).2.2 = .queued
    ∧ (handleClipboardUpdateEvent tagHash true {initialState with lastSyncTime := 1000}
        "devA" ⟨"hello", true, true⟩ 1020).1.syncQueue
      = [⟨"hello", "devA", true, 1020, tagHash "hello"⟩] := by decide

/-- C7 amended: the `clipboard-update` handler never reads a `forced`
attribute — two data objects differing only in `forced` are processed
identically — and every update arriving within `minSyncInterval` of the last
accepted one (forced or not) is appended to `syncQueue` and returns the
queued path. -/
theorem C7_no_forced_bypass (g : String → String) (wk : Bool) (st : ServerState)
    (sid c : String) (aw f1 f2 : Bool) (n : Nat) :
    handleClipboardUpdateEvent g wk st sid ⟨c, aw, f1⟩ n
      = handleClipboardUpdateEvent g wk st sid ⟨c, aw, f2⟩ n
    ∧ (st.autoSyncEnabled = true → g c ≠ st.lastClipboardHash →
        n - st.lastSyncTime < st.minSyncInterval →
        handleClipboardUpdateEvent g wk st sid ⟨c, aw, f1⟩ n
          = ({st with
                syncQueue := st.syncQueue ++ [⟨c, sid, aw, n, g c⟩]
                processing := true}, [], .queued)) :=
  ⟨rfl, fun hA hDup hRate => updateClipboard_queued (Or.inl hA) hDup hRate⟩

/-- C7 witness at a concrete rapid forced update. -/
theorem C7_no_forced_bypass_witness :
    handleClipboardUpdateEvent tagHash true {initialState with lastSyncTime := 1000}
        "devA" ⟨"hello", true, true⟩ 1020
      = handleClipboardUpdateEvent tagHash true {initialState with lastSyncTime := 1000}
          "devA" ⟨"hello", true, false⟩ 1020
    ∧ handleClipboardUpdateEvent tagHash true {initialState with lastSyncTime := 1000}
        "devA" ⟨"hello", true, true⟩ 1020
      = ({initialState with
            lastSyncTime := 1000
            syncQueue := [⟨"hello", "devA", true, 1020, tagHash "hello"⟩]
            processing := true}, [], .queued) := by
  have h := C7_no_forced_bypass tagHash true {initialState with lastSyncTime := 1000}
    "devA" "hello" true true false 1020
  exact ⟨h.1, h.2 (by decide) (by decide) (by decide)⟩

/-- C8: a failing OS clipboard write changes nothing but the recorded
outcome of the write event itself — the resulting state, the result path and
every non-write event (history record, fan-out) are identical to a
successful write — and on the accept path the update is still recorded at
the front of the history and still broadcast to every other auto-sync
device. -/
theorem C8_write_failure_isolated (g : String → String) (st : ServerState)
    (c s : String) (a : Bool) (n : Nat) :
    (updateClipboard g false st c s a n).1 = (updateClipboard g true st c s a n).1
    ∧ (updateClipboard g false st c s a n).2.2 = (updateClipboard g true st c s a n).2.2
    ∧ (updateClipboard g false st c s a n).2.1
        = ((updateClipboard g true st c s a n).2.1).map (setWriteOutcome false)
    ∧ (st.autoSyncEnabled = true ∨ s = "local" → g c ≠ st.lastClipboardHash →
        ¬ (n - st.lastSyncTime < st.minSyncInterval) →
        conflictHit st.conflictResolver (g c) n = false →
        isContentFiltered c = false → 0 < st.maxHistorySize →
        (updateClipboard g false st c s a n).2.2 = .accepted
        ∧ (∃ it, (updateClipboard g false st c s a n).1.clipboardHistory.head? = some it
            ∧ it.hash = g c)
        ∧ updateTargets (updateClipboard g false st c s a n).2.1
            = (st.connectedDevices.filter fun d => d.id != s && d.autoSync).map
                fun d => d.id) := by
  have h := updateClipboard_writeOk g false st c s a n
  refine ⟨by rw [h], by rw [h], by rw [h], fun hA hDup hRate hConf hFilt hCap => ?_⟩
  have hacc := @updateClipboard_accept g false st c s a n hA hDup hRate hConf hFilt
  have hne : c ≠ "" := by
    intro hc
    rw [hc, isContentFiltered_empty] at hFilt
    cases hFilt
  refine ⟨by rw [hacc]; rfl, ?_, by rw [hacc]; exact acceptOutput_targets g false st c s a n⟩
  rw [hacc, acceptOutput_fst]
  exact addToHistory_front_hash hne hCap

/-- C8 witness at a concrete accepted update with a failing write. -/
theorem C8_write_failure_isolated_witness :
    (updateClipboard tagHash false initialState "hello" "devA" true 1000).1
        = (updateClipboard tagHash true initialState "hello" "devA" true 1000).1
    ∧ (updateClipboard tagHash false initialState "hello" "devA" true 1000).2.2
        = (updateClipboard tagHash true initialState "hello" "devA" true 1000).2.2
    ∧ (updateClipboard tagHash false initialState "hello" "devA" true 1000).2.1
        = ((updateClipboard tagHash true initialState "hello" "devA" true 1000).2.1).map
            (setWriteOutcome false)
    ∧ ((updateClipboard tagHash false initialState "hello" "devA" true 1000).2.2 = .accepted
        ∧ (∃ it, (updateClipboard tagHash false initialState "hello" "devA" true
              1000).1.clipboardHistory.head? = some it ∧ it.hash = tagHash "hello")
        ∧ updateTargets (updateClipboard tagHash false initialState "hello" "devA"
              true 1000).2.1
            = (initialState.connectedDevices.filter
                fun d => d.id != "devA" && d.autoSync).map fun d => d.id) := by
  have h := C8_write_failure_isolated tagHash initialState "hello" "devA" true 1000
  exact ⟨h.1, h.2.1, h.2.2.1,
    h.2.2.2 (Or.inl rfl) (by decide) (by decide) (by decide) (by decide) (by decide)⟩

/-- C9 counterexample: an empty update from a fresh state IS fingerprinted —
after the call the stored `lastClipboardHash` equals the digest of the empty
string (a state change), so the rejection happens after fingerprinting, not
before. -/
theorem C9_counterexample :
    (updateClipboard tagHash true initialState "" "devA" true 1000).1.lastClipboardHash
        = tagHash ""
    ∧ tagHash "" ≠ initialState.lastClipboardHash
    ∧ (updateClipboard tagHash true initialState "" "devA" true 1000).1
        ≠ initialState := by decide

/-- C9 amended: an empty-content update that reaches the filter step is
rejected by the content filter — but only after its fingerprint was computed
and the latest-known bookkeeping (conflict entry, `lastSyncTime`,
`lastClipboard`, `lastClipboardHash`) was updated; it is never written to
history, never written to the OS clipboard, and never broadcast (no events
at all). -/
theorem C9_empty_content_rejected (g : String → String) (wk : Bool) (st : ServerState)
    (s : String) (a : Bool) (n : Nat)
    (hA : st.autoSyncEnabled = true ∨ s = "local")
    (hDup : g "" ≠ st.lastClipboardHash)
    (hRate : ¬ (n - st.lastSyncTime < st.minSyncInterval))
    (hConf : conflictHit st.conflictResolver (g "") n = false) :
    updateClipboard g wk st "" s a n = (bookkeepState g st "" n, [], .rejectedFiltered)
    ∧ (bookkeepState g st "" n).lastClipboardHash = g ""
    ∧ (bookkeepState g st "" n).clipboardHistory = st.clipboardHistory :=
  ⟨updateClipboard_filtered hA hDup hRate hConf isContentFiltered_empty, rfl, rfl⟩

/-- C9 witness at a concrete empty update. -/
theorem C9_empty_content_rejected_witness :
    updateClipboard tagHash true initialState "" "devA" true 1000
        = (bookkeepState tagHash initialState "" 1000, [], .rejectedFiltered)
    ∧ (bookkeepState tagHash initialState "" 1000).lastClipboardHash = tagHash ""
    ∧ (bookkeepState tagHash initialState "" 1000).clipboardHistory
        = initialState.clipboardHistory :=
  C9_empty_content_rejected tagHash true initialState "devA" true 1000
    (Or.inl rfl) (by decide) (by decide) (by decide)

/-- C5: on the accept path the `clipboard-update` fan-out targets are exactly
the registered devices with `autoSync = true` whose id differs from the
update's source; in particular the sender is never a target, and (with
distinct device ids) a device with `autoSync = false` receives nothing. -/
theorem C5_fanout_excludes_source (g : String → String) (wk : Bool) (st : ServerState)
    (c s : String) (a : Bool) (n : Nat)
    (hA : st.autoSyncEnabled = true ∨ s = "local")
    (hDup : g c ≠ st.lastClipboardHash)
    (hRate : ¬ (n - st.lastSyncTime < st.minSyncInterval))
    (hConf : conflictHit st.conflictResolver (g c) n = false)
    (hFilt : isContentFiltered c = false)
    (hNd : (st.connectedDevices.map fun d => d.id).Nodup) :
    updateTargets (updateClipboard g wk st c s a n).2.1
        = ((st.connectedDevices.filter fun d => d.id != s && d.autoSync).map fun d => d.id)
    ∧ s ∉ updateTargets (updateClipboard g wk st c s a n).2.1
    ∧ ∀ d ∈ st.connectedDevices, d.autoSync = false →
        d.id ∉ updateTargets (updateClipboard g wk st c s a n).2.1 := by
  have hacc := @updateClipboard_accept g wk st c s a n hA hDup hRate hConf hFilt
  have htgt : updateTargets (updateClipboard g wk st c s a n).2.1
      = (st.connectedDevices.filter fun d => d.id != s && d.autoSync).map fun d => d.id := by
    rw [hacc]
    exact acceptOutput_targets g wk st c s a n
  refine ⟨htgt, ?_, ?_⟩
  · rw [htgt]
    intro hmem
    rcases List.mem_map.mp hmem with ⟨d, hd, hid⟩
    have hfil := (List.mem_filter.mp hd).2
    simp only [Bool.and_eq_true, bne_iff_ne] at hfil
    exact hfil.1 hid
  · intro d hd hsync
    rw [htgt]
    intro hmem
    rcases List.mem_map.mp hmem with ⟨d', hd', hid⟩
    have hfil := List.mem_filter.mp hd'
    have hdd : d' = d := List.inj_on_of_nodup_map hNd hfil.1 hd hid
    have := hfil.2
    simp only [Bool.and_eq_true] at this
    rw [hdd, hsync] at this
    cases this.2

/-- C5 witness: three devices, one of them the sender, one with autoSync
off. -/
theorem C5_fanout_excludes_source_witness :
    updateTargets (updateClipboard tagHash true
        {initialState with connectedDevices :=
          [⟨"devA", "A", "desktop", true, 1⟩, ⟨"devB", "B", "mobile", true, 2⟩,
           ⟨"devC", "C", "tablet", false, 3⟩]}
        "hello" "devA" true 1000).2.1
        = [("devB" : String)]
    ∧ "devA" ∉ updateTargets (updateClipboard tagHash true
        {initialState with connectedDevices :=
          [⟨"devA", "A", "desktop", true, 1⟩, ⟨"devB", "B", "mobile", true, 2⟩,
           ⟨"devC", "C", "tablet", false, 3⟩]}
        "hello" "devA" true 1000).2.1 := by
  have h := C5_fanout_excludes_source tagHash true
    {initialState with connectedDevices :=
      [⟨"devA", "A", "desktop", true, 1⟩, ⟨"devB", "B", "mobile", true, 2⟩,
       ⟨"devC", "C", "tablet", false, 3⟩]}
    "hello" "devA" true 1000 (Or.inl rfl) (by decide) (by decide) (by decide)
    (by decide) (by decide)
  refine ⟨?_, h.2.1⟩
  rw [h.1]
  decide

/-- C10: whenever a device registers while the engine holds a non-empty last
known clipboard value, that one socket is immediately sent a
`clipboard-update` with that value, `from = 'server'` and `autoWrite = true`,
whatever its own autoSync flag is; and any update passing the gate, the
duplicate check, the rate limiter and the conflict window sets
`lastClipboard` to its content before the filter runs, so the greeting can
carry filter-rejected content. -/
theorem C10_register_greeting (g : String → String) (wk : Bool) :
    (∀ (st : ServerState) (id name ty : String) (b : Bool) (n : Nat),
      st.lastClipboard ≠ "" →
      (registerDevice st id name ty b n).2
        = [Event.deviceList (upsertDevice st.connectedDevices ⟨id, name, ty, b, n⟩),
           Event.historyBroadcast st.clipboardHistory,
           Event.deviceUpdate id
             ⟨st.lastClipboard, "server", n, st.lastClipboardHash, true, false⟩])
    ∧ (∀ (st : ServerState) (c s : String) (a : Bool) (n : Nat),
        st.autoSyncEnabled = true ∨ s = "local" → g c ≠ st.lastClipboardHash →
        ¬ (n - st.lastSyncTime < st.minSyncInterval) →
        conflictHit st.conflictResolver (g c) n = false →
        (updateClipboard g wk st c s a n).1.lastClipboard = c) := by
  constructor
  · intro st id name ty b n hne
    unfold registerDevice
    dsimp only
    rw [if_pos hne]
    rfl
  · intro st c s a n hA hDup hRate hConf
    cases hFilt : isContentFiltered c with
    | true =>
      rw [@updateClipboard_filtered g wk st c s a n hA hDup hRate hConf hFilt]
      rfl
    | false =>
      rw [@updateClipboard_accept g wk st c s a n hA hDup hRate hConf hFilt,
        acceptOutput_fst]

/-- C10 witness: after the filter rejects an api_key-style update, the value
is still the last known clipboard, and a registering device with autoSync
off receives it. -/
theorem C10_register_greeting_witness :
    (updateClipboard tagHash true initialState "my api_key: xyz123" "devA" true
        1000).1.lastClipboard = "my api_key: xyz123"
    ∧ (registerDevice (updateClipboard tagHash true initialState "my api_key: xyz123"
          "devA" true 1000).1 "devB" "Phone" "mobile" false 1100).2
      = [Event.deviceList (upsertDevice (updateClipboard tagHash true initialState
            "my api_key: xyz123" "devA" true 1000).1.connectedDevices
            ⟨"devB", "Phone", "mobile", false, 1100⟩),
         Event.historyBroadcast (updateClipboard tagHash true initialState
            "my api_key: xyz123" "devA" true 1000).1.clipboardHistory,
         Event.deviceUpdate "devB"
           ⟨(updateClipboard tagHash true initialState "my api_key: xyz123" "devA" true
              1000).1.lastClipboard, "server", 1100,
            (updateClipboard tagHash true initialState "my api_key: xyz123" "devA" true
              1000).1.lastClipboardHash, true, false⟩] := by
  have h2 := (C10_register_greeting tagHash true).2 initialState "my api_key: xyz123"
    "devA" true 1000 (Or.inl rfl) (by decide) (by decide) (by decide)
  refine ⟨h2, ?_⟩
  exact (C10_register_greeting tagHash true).1
    (updateClipboard tagHash true initialState "my api_key: xyz123" "devA" true 1000).1
    "devB" "Phone" "mobile" false 1100 (by rw [h2]; decide)

/-- C3 counterexample: recording "A" at t=1, "B" at t=2, "A" at t=3
promotes the existing "A" item to the front, but its timestamp stays 1 — it
is NOT refreshed to the new occurrence's timestamp 3 as the claim states
(the content list is still ["A", "B"]). -/
theorem C3_counterexample :
    ((addToHistory tagHash (addToHistory tagHash (addToHistory tagHash initialState
        "A" 1).1 "B" 2).1 "A" 3).1.clipboardHistory.map fun it => (it.content, it.timestamp))
      = [("A", 1), ("B", 2)]
    ∧ ((addToHistory tagHash (addToHistory tagHash (addToHistory tagHash initialState
        "A" 1).1 "B" 2).1 "A" 3).1.clipboardHistory.head?.map fun it => it.timestamp)
      ≠ some 3 := by decide

/-- C3 amended: `addToHistory` is a no-op when the hash is already at the
front; when the hash occurs deeper in the store the existing item is moved
to the front UNCHANGED (content and timestamp keep the values of the earlier
occurrence, not of the new one); otherwise a fresh item is inserted at the
front; and recording a batch of distinct non-empty contents into an empty
store keeps, after trimming to the cap, exactly the most recent `cap` items
(most recent first, oldest evicted). -/
theorem C3_record_contract (g : String → String) :
    (∀ (st : ServerState) (c : String) (n : Nat) (it : HistoryItem),
      c ≠ "" → st.clipboardHistory.head? = some it → it.hash = g c →
      addToHistory g st c n = (st, []))
    ∧ (∀ (st : ServerState) (c : String) (n : Nat) (q it : HistoryItem)
        (pre post : List HistoryItem),
        c ≠ "" → st.clipboardHistory = (q :: pre) ++ it :: post →
        (∀ x ∈ q :: pre, x.hash ≠ g c) → it.hash = g c →
        addToHistory g st c n
          = ({st with clipboardHistory :=
                trimHistory st.maxHistorySize (it :: (q :: pre) ++ post)},
             [Event.historyBroadcast
                (trimHistory st.maxHistorySize (it :: (q :: pre) ++ post))]))
    ∧ (∀ (st : ServerState) (c : String) (n : Nat),
        c ≠ "" → (∀ x ∈ st.clipboardHistory, x.hash ≠ g c) →
        addToHistory g st c n
          = ({st with clipboardHistory :=
                trimHistory st.maxHistorySize (mkHistoryItem c (g c) n :: st.clipboardHistory)},
             [Event.historyBroadcast (trimHistory st.maxHistorySize
                (mkHistoryItem c (g c) n :: st.clipboardHistory))]))
    ∧ (∀ (st : ServerState) (cs : List (String × Nat)),
        st.clipboardHistory = [] → (∀ p ∈ cs, p.1 ≠ "") →
        (cs.map fun p => g p.1).Nodup →
        (recordAll g st cs).clipboardHistory
          = (cs.reverse.map fun p => mkHistoryItem p.1 (g p.1) p.2).take
              st.maxHistorySize) := by
  refine ⟨fun st c n it hne hhead hhash => addToHistory_noop_front hne hhead hhash,
    fun st c n q it pre post hne hsplit hpre hhash =>
      addToHistory_promote hne hsplit hpre hhash,
    fun st c n hne hnot => addToHistory_fresh hne hnot,
    fun st cs h0 hne hnd => ?_⟩
  have h := recordAll_distinct g cs st [] (by simpa using h0) (by simpa using hne)
    (by simpa using hnd)
  simpa using h.1

/-- C3 witness: the "A","B","A" promotion at a concrete store, and three
distinct contents recorded into a store capped at 2 keeping only the two
most recent. -/
theorem C3_record_contract_witness :
    (addToHistory tagHash (addToHistory tagHash (addToHistory tagHash initialState
        "A" 1).1 "B" 2).1 "A" 3).1.clipboardHistory
      = [mkHistoryItem "A" (tagHash "A") 1, mkHistoryItem "B" (tagHash "B") 2]
    ∧ (recordAll tagHash {initialState with maxHistorySize := 2}
        [("A", 1), ("B", 2), ("C", 3)]).clipboardHistory
      = [mkHistoryItem "C" (tagHash "C") 3, mkHistoryItem "B" (tagHash "B") 2] := by
  constructor
  · have h := (C3_record_contract tagHash).2.1
      (addToHistory tagHash (addToHistory tagHash initialState "A" 1).1 "B" 2).1
      "A" 3 (mkHistoryItem "B" (tagHash "B") 2) (mkHistoryItem "A" (tagHash "A") 1)
      [] [] (by decide) (by decide) (by decide) (by decide)
    rw [h]
    decide
  · have h := (C3_record_contract tagHash).2.2.2
      {initialState with maxHistorySize := 2} [("A", 1), ("B", 2), ("C", 3)]
      rfl (by decide) (by decide)
    rw [h]
    decide

/-- C1 counterexample: the filtered api_key content is nevertheless delivered
to a newly registering device, because the register-device greeting sends
`lastClipboard`, which was updated before the filter ran. -/
theorem C1_counterexample :
    isContentFiltered "my api_key: xyz123" = true
    ∧ Event.deviceUpdate "devB"
        ⟨"my api_key: xyz123", "server", 1100, tagHash "my api_key: xyz123", true, false⟩
      ∈ (run tagHash initialState
          [Op.ingest "my api_key: xyz123" "devA" true true 1000,
           Op.register "devB" "Phone" "mobile" true 1100]).2 := by decide

/-- C1 amended: in every run from the initial state, each history item comes
from filter-accepted content; every `clipboard-update` emitted by
`updateClipboard` carries exactly the ingested content, which the filter
accepted; and filter-accepted content reaching the accept step is recorded
at the history front and fanned out to all other auto-sync devices.  (The
register-device greeting and the force-sync reply are the exception the
counterexample exhibits: they transmit `lastClipboard`, which can hold
filter-rejected content.) -/
theorem C1_filter_boundaries (g : String → String) :
    (∀ ops : List Op, ∀ it ∈ (run g initialState ops).1.clipboardHistory,
      ∃ c t, isContentFiltered c = false ∧ it = mkHistoryItem c (g c) t)
    ∧ (∀ (wk : Bool) (st : ServerState) (c s : String) (a : Bool) (n : Nat)
        (t : String) (m : UpdateMsg),
        Event.deviceUpdate t m ∈ (updateClipboard g wk st c s a n).2.1 →
        m.content = c ∧ isContentFiltered c = false)
    ∧ (∀ (wk : Bool) (st : ServerState) (c s : String) (a : Bool) (n : Nat),
        st.autoSyncEnabled = true ∨ s = "local" → g c ≠ st.lastClipboardHash →
        ¬ (n - st.lastSyncTime < st.minSyncInterval) →
        conflictHit st.conflictResolver (g c) n = false →
        isContentFiltered c = false → 0 < st.maxHistorySize →
        (updateClipboard g wk st c s a n).2.2 = .accepted
        ∧ (∃ it, (updateClipboard g wk st c s a n).1.clipboardHistory.head? = some it
            ∧ it.hash = g c)
        ∧ updateTargets (updateClipboard g wk st c s a n).2.1
            = ((st.connectedDevices.filter fun d => d.id != s && d.autoSync).map
                fun d => d.id)) := by
  refine ⟨?_, fun wk st c s a n t m hm => updateClipboard_deviceUpdate hm,
    fun wk st c s a n hA hDup hRate hConf hFilt hCap => ?_⟩
  · intro ops
    exact histProvenance_run ops initialState (fun it h => absurd h (List.not_mem_nil it))
  · have hacc := @updateClipboard_accept g wk st c s a n hA hDup hRate hConf hFilt
    have hne : c ≠ "" := by
      intro hc
      rw [hc, isContentFiltered_empty] at hFilt
      cases hFilt
    refine ⟨by rw [hacc]; rfl, ?_,
      by rw [hacc]; exact acceptOutput_targets g wk st c s a n⟩
    rw [hacc, acceptOutput_fst]
    exact addToHistory_front_hash hne hCap

/-- C1 witness: a clean short content from one device is accepted, recorded
at the front and fanned out to the other registered auto-sync device. -/
theorem C1_filter_boundaries_witness :
    (updateClipboard tagHash true
        {initialState with connectedDevices := [⟨"devB", "B", "mobile", true, 2⟩]}
        "hello" "devA" true 1000).2.2 = .accepted
    ∧ (∃ it, (updateClipboard tagHash true
        {initialState with connectedDevices := [⟨"devB", "B", "mobile", true, 2⟩]}
        "hello" "devA" true 1000).1.clipboardHistory.head? = some it
          ∧ it.hash = tagHash "hello")
    ∧ updateTargets (updateClipboard tagHash true
        {initialState with connectedDevices := [⟨"devB", "B", "mobile", true, 2⟩]}
        "hello" "devA" true 1000).2.1
      = ((([⟨"devB", "B", "mobile", true, 2⟩] : List Device).filter
              fun d => d.id != "devA" && d.autoSync).map fun d => d.id) :=
  (C1_filter_boundaries tagHash).2.2 true
    {initialState with connectedDevices := [⟨"devB", "B", "mobile", true, 2⟩]}
    "hello" "devA" true 1000 (Or.inl rfl) (by decide) (by decide) (by decide)
    (by decide) (by decide)

/-- C4: two updates with fresh distinct contents both arriving within
`minSyncInterval` of the last accepted update are both queued (no events);
when the deferred drain fires, only the most recent queued update (U2)
survives — it alone is evaluated and accepted, the queue is cleared, U2 is
recorded at the history front, and U1's content never appears in the
history nor in any emitted `clipboard-update`. -/
theorem C4_coalescing (g : String → String) (wk1 wk2 wkF : Bool) (st : ServerState)
    (c1 c2 s1 s2 : String) (a1 a2 : Bool) (n1 n2 nf : Nat)
    (hA : st.autoSyncEnabled = true)
    (hd1 : g c1 ≠ st.lastClipboardHash)
    (hd2 : g c2 ≠ st.lastClipboardHash)
    (hr1 : n1 - st.lastSyncTime < st.minSyncInterval)
    (hr2 : n2 - st.lastSyncTime < st.minSyncInterval)
    (hrF : ¬ (nf - st.lastSyncTime < st.minSyncInterval))
    (hConfF : conflictHit st.conflictResolver (g c2) nf = false)
    (hFiltF : isContentFiltered c2 = false)
    (hc1New : ∀ x ∈ st.clipboardHistory, x.hash ≠ g c1)
    (hc12 : g c1 ≠ g c2)
    (hCap : 0 < st.maxHistorySize) :
    (updateClipboard g wk1 st c1 s1 a1 n1).2.2 = .queued
    ∧ (updateClipboard g wk1 st c1 s1 a1 n1).2.1 = []
    ∧ (updateClipboard g wk2 (updateClipboard g wk1 st c1 s1 a1 n1).1
        c2 s2 a2 n2).2.2 = .queued
    ∧ (updateClipboard g wk2 (updateClipboard g wk1 st c1 s1 a1 n1).1
        c2 s2 a2 n2).2.1 = []
    ∧ (processSyncQueueFire g wkF (updateClipboard g wk2
        (updateClipboard g wk1 st c1 s1 a1 n1).1 c2 s2 a2 n2).1 nf).2.2
        = some .accepted
    ∧ (processSyncQueueFire g wkF (updateClipboard g wk2
        (updateClipboard g wk1 st c1 s1 a1 n1).1 c2 s2 a2 n2).1 nf).1.syncQueue = []
    ∧ (∃ it, (processSyncQueueFire g wkF (updateClipboard g wk2
        (updateClipboard g wk1 st c1 s1 a1 n1).1 c2 s2 a2 n2).1
          nf).1.clipboardHistory.head? = some it ∧ it.hash = g c2)
    ∧ (∀ x ∈ (processSyncQueueFire g wkF (updateClipboard g wk2
        (updateClipboard g wk1 st c1 s1 a1 n1).1 c2 s2 a2 n2).1
          nf).1.clipboardHistory, x.hash ≠ g c1)
    ∧ (∀ (t : String) (m : UpdateMsg), Event.deviceUpdate t m ∈
        (processSyncQueueFire g wkF (updateClipboard g wk2
          (updateClipboard g wk1 st c1 s1 a1 n1).1 c2 s2 a2 n2).1 nf).2.1 →
        m.content = c2) := by
  have h1 := @updateClipboard_queued g wk1 st c1 s1 a1 n1 (Or.inl hA) hd1 hr1
  have h2 := @updateClipboard_queued g wk2
    {st with
      syncQueue := st.syncQueue ++ [⟨c1, s1, a1, n1, g c1⟩]
      processing := true} c2 s2 a2 n2 (Or.inl hA) hd2 hr2
  have hX : (updateClipboard g wk2 (updateClipboard g wk1 st c1 s1 a1 n1).1
      c2 s2 a2 n2).1
      = {st with syncQueue := (st.syncQueue ++ [⟨c1, s1, a1, n1, g c1⟩])
          ++ [⟨c2, s2, a2, n2, g c2⟩], processing := true} := by
    rw [h1]
    dsimp only
    rw [h2]
  have hacc := @updateClipboard_accept g wkF
    {st with syncQueue := [], processing := true} c2 s2 a2 nf
    (Or.inl hA) hd2 hrF hConfF hFiltF
  have key : processSyncQueueFire g wkF (updateClipboard g wk2
      (updateClipboard g wk1 st c1 s1 a1 n1).1 c2 s2 a2 n2).1 nf
      = ({(acceptOutput g wkF {st with syncQueue := [], processing := true}
            c2 s2 a2 nf).1 with processing := false},
         (acceptOutput g wkF {st with syncQueue := [], processing := true}
            c2 s2 a2 nf).2.1,
         some ((acceptOutput g wkF {st with syncQueue := [], processing := true}
            c2 s2 a2 nf).2.2)) := by
    rw [hX]
    unfold processSyncQueueFire
    dsimp only
    rw [List.getLast?_concat]
    dsimp only
    rw [hacc]
  have hne : c2 ≠ "" := by
    intro hc
    rw [hc, isContentFiltered_empty] at hFiltF
    cases hFiltF
  refine ⟨by rw [h1], by rw [h1], ?_, ?_, by rw [key]; rfl,
    by rw [key, acceptOutput_fst], ?_, ?_, ?_⟩
  · rw [h1]
    dsimp only
    rw [h2]
  · rw [h1]
    dsimp only
    rw [h2]
  · rw [key]
    dsimp only
    rw [acceptOutput_fst]
    exact addToHistory_front_hash hne hCap
  · rw [key]
    dsimp only
    rw [acceptOutput_fst]
    intro x hx
    rcases addToHistory_mem g (bookkeepState g
      {st with syncQueue := [], processing := true} c2 nf) c2 nf x hx with h | h
    · rw [h]
      exact fun hcontra => hc12 hcontra.symm
    · exact hc1New x h
  · rw [key]
    intro t m hm
    dsimp only at hm
    have hacc' := hacc.symm
    rw [hacc'] at hm
    exact (updateClipboard_deviceUpdate hm).1



/-- C4 witness: two rapid updates U1, U2 at 20 ms and 30 ms after the last
accepted sync are both queued; the drain at 70 ms accepts only U2. -/
theorem C4_coalescing_witness :
    (updateClipboard tagHash true {initialState with lastSyncTime := 1000}
        "U1" "devA" true 1020).2.2 = .queued
    ∧ (updateClipboard tagHash true (updateClipboard tagHash true
        {initialState with lastSyncTime := 1000} "U1" "devA" true 1020).1
        "U2" "devC" true 1030).2.2 = .queued
    ∧ (processSyncQueueFire tagHash true (updateClipboard tagHash true
        (updateClipboard tagHash true {initialState with lastSyncTime := 1000}
          "U1" "devA" true 1020).1 "U2" "devC" true 1030).1 1070).2.2
        = some .accepted
    ∧ (processSyncQueueFire tagHash true (updateClipboard tagHash true
        (updateClipboard tagHash true {initialState with lastSyncTime := 1000}
          "U1" "devA" true 1020).1 "U2" "devC" true 1030).1 1070).1.syncQueue = []
    ∧ (∃ it, (processSyncQueueFire tagHash true (updateClipboard tagHash true
        (updateClipboard tagHash true {initialState with lastSyncTime := 1000}
          "U1" "devA" true 1020).1 "U2" "devC" true 1030).1
            1070).1.clipboardHistory.head? = some it ∧ it.hash = tagHash "U2")
    ∧ (∀ x ∈ (processSyncQueueFire tagHash true (updateClipboard tagHash true
        (updateClipboard tagHash true {initialState with lastSyncTime := 1000}
          "U1" "devA" true 1020).1 "U2" "devC" true 1030).1
            1070).1.clipboardHistory, x.hash ≠ tagHash "U1") := by
  have h := C4_coalescing tagHash true true true {initialState with lastSyncTime := 1000}
    "U1" "U2" "devA" "devC" true true 1020 1030 1070 rfl (by decide) (by decide)
    (by decide) (by decide) (by decide) (by decide) (by decide) (by decide)
    (by decide) (by decide)
  exact ⟨h.1, h.2.2.1, h.2.2.2.2.1, h.2.2.2.2.2.1, h.2.2.2.2.2.2.1, h.2.2.2.2.2.2.2.1⟩

end UniversalClipboard
